import Mathlib

/-!
Shallow embedding of the funding-rate aggregation service
(src/api/funding-rates.js and the earlier variant src/unnamed/part_000).

JavaScript numbers are modelled as exact rationals; `null`/`undefined`
fields are modelled with `Option` (with an explicit three-valued type where
the code distinguishes `null` from `undefined`).  Network effects are
modelled by passing the data a request would have returned as an explicit
argument, and a failed request as `none`.
-/

namespace FundingRates

/-- JS `Math.round` on an exact rational: round half toward positive infinity. -/
def jsRound (q : ℚ) : ℚ := ((⌊q + 1/2⌋ : ℤ) : ℚ)

/-- JS `Number.prototype.toFixed(6)`, as the exact rational value of the
decimal string it produces (ties go to the larger candidate). -/
def toFixed6 (q : ℚ) : ℚ := jsRound (q * 1000000) / 1000000

/-- Truthiness of a JS number-or-null value: `null`, `undefined` and `0` are falsy. -/
def jsTruthy : Option ℚ → Bool
  | none => false
  | some q => q != 0

/-- Falsiness of a JS number-or-null value. -/
def jsFalsy : Option ℚ → Bool
  | none => true
  | some q => q == 0

/-- JS `parseFloat(x) || 0` applied to a stored rate value: `null` parses to
`NaN` and is replaced by `0`; a numeric value stands (a zero value is mapped
to `0` by the `|| 0` as well, which is the identity there). -/
def jsOr0 : Option ℚ → ℚ
  | none => 0
  | some q => q

/-- Source `calculateFundingInterval(currentTime, nextTime)` (identical in both
files): `if (!currentTime || !nextTime) return null;` then
`Math.round((nextTime - currentTime) / (1000 * 60 * 60))`. -/
def calculateFundingInterval : Option ℚ → Option ℚ → Option ℚ
  | some c, some n =>
    if c == 0 || n == 0 then none
    else some (jsRound ((n - c) / (1000 * 60 * 60)))
  | _, _ => none

/-- Boolean test that a character list is a prefix of another. -/
def isPrefixList : List Char → List Char → Bool
  | [], _ => true
  | _ :: _, [] => false
  | a :: as, b :: bs => a == b && isPrefixList as bs

/-- Boolean substring test on character lists. -/
def containsList (pat : List Char) : List Char → Bool
  | [] => pat.isEmpty
  | c :: rest => isPrefixList pat (c :: rest) || containsList pat rest

/-- JS `String.prototype.includes` for a literal pattern. -/
def jsIncludes (s pat : String) : Bool := containsList pat.toList s.toList

/-- Replace the first occurrence of `pat` (a nonempty literal) in a character list. -/
def replaceFirstList (pat rep : List Char) : List Char → List Char
  | [] => []
  | c :: rest =>
    if isPrefixList pat (c :: rest) then rep ++ (c :: rest).drop pat.length
    else c :: replaceFirstList pat rep rest

/-- JS `String.prototype.replace` with a string pattern: first occurrence only. -/
def jsReplace (s pat rep : String) : String :=
  String.mk (replaceFirstList pat.toList rep.toList s.toList)

/-- JS `symbol.split(':')[0]`: the part of the string before the first colon. -/
def takeBeforeColon (s : String) : String :=
  String.mk (s.toList.takeWhile (fun c => c != ':'))

/-- JS `String.prototype.toUpperCase` (the symbols involved are ASCII). -/
def jsToUpper (s : String) : String := String.mk (s.toList.map Char.toUpper)

/-- JS `String.prototype.startsWith` for a literal pattern. -/
def jsStartsWith (s pat : String) : Bool := isPrefixList pat.toList s.toList

/-- Code-unit comparison underlying `localeCompare` ordering for the ASCII
symbol names the adapters produce. -/
def charListLe : List Char → List Char → Bool
  | [], _ => true
  | _ :: _, [] => false
  | a :: as, b :: bs => a < b || (a == b && charListLe as bs)

/-- Normalized per-instrument record pushed by the adapters.  Rate and
datetime fields hold the numeric value of the stored string (`none` = JS
`null`); `fundingIntervalHours` is always assigned a number by the code. -/
structure FundingRecord where
  exchange : String
  symbol : String
  fullSymbol : String
  fundingRate : Option ℚ
  fundingTimestamp : Option ℚ
  fundingDatetime : Option ℚ
  nextFundingTime : Option ℚ
  nextFundingDatetime : Option ℚ
  fundingIntervalHours : ℚ
  markPrice : Option ℚ
  indexPrice : Option ℚ
deriving DecidableEq, Inhabited

/-- One item of the MEXC `contract/funding_rate` payload (the fields the code
reads).  `symbol := none` models an absent or empty (falsy) symbol;
`collectCycle := some q` models a present value of type number. -/
structure MexcItem where
  symbol : Option String
  fundingRate : Option ℚ
  collectCycle : Option ℚ
  nextSettleTime : Option ℚ
deriving DecidableEq, Inhabited

/-- Per-item body of the `data.data.forEach` loop in `fetchMexcFundingRates`
(src/api/funding-rates.js, direct-API path): emits a record iff the item has a
truthy symbol containing "USDT".  The interval defaults to 8 and is replaced by
`collectCycle` whenever that is a truthy number, with no range validation. -/
def mexcRecordOfItem (item : MexcItem) : Option FundingRecord :=
  match item.symbol with
  | none => none
  | some sym =>
    if jsIncludes sym "USDT" then
      let baseSymbol := jsToUpper (jsReplace (jsReplace sym "_USDT" "") "USDT" "")
      let fundingIntervalHours : ℚ :=
        match item.collectCycle with
        | some q => if q != 0 then q else 8
        | none => 8
      some {
        exchange := "MEXC"
        symbol := baseSymbol
        fullSymbol := baseSymbol ++ "/USDT:USDT"
        fundingRate :=
          match item.fundingRate with
          | some q => if q != 0 then some (toFixed6 (q * 100)) else none
          | none => none
        fundingTimestamp :=
          if jsTruthy item.nextSettleTime then
            some (jsOr0 item.nextSettleTime - fundingIntervalHours * 60 * 60 * 1000)
          else none
        fundingDatetime :=
          if jsTruthy item.nextSettleTime then
            some (jsOr0 item.nextSettleTime - fundingIntervalHours * 60 * 60 * 1000)
          else none
        nextFundingTime := if jsTruthy item.nextSettleTime then item.nextSettleTime else none
        nextFundingDatetime := if jsTruthy item.nextSettleTime then item.nextSettleTime else none
        fundingIntervalHours := fundingIntervalHours
        markPrice := none
        indexPrice := none }
    else none

/-- The rate field of a Binance funding snapshot, keeping the JS distinction
between `undefined` (entry skipped by the loop guard) and `null`. -/
inductive JsRate where
  | undef
  | null
  | num (q : ℚ)
deriving DecidableEq, Inhabited

/-- The fields of one Binance `fetchFundingRates()` snapshot entry that the
code reads.  Datetime strings are modelled by the instant they parse to
(`none` = absent / unparseable; a string parsing to instant 0 behaves
identically to an absent one in every use below). -/
structure BinanceData where
  fundingRate : JsRate
  fundingTimestamp : Option ℚ
  nextFundingTime : Option ℚ
  fundingDatetime : Option ℚ
  nextFundingDatetime : Option ℚ
  markPrice : Option ℚ
  indexPrice : Option ℚ
deriving DecidableEq, Inhabited

/-- The call-site validity check `if (interval && interval > 0 && interval <= 24)`. -/
def inRange24 : Option ℚ → Bool
  | none => false
  | some q => q != 0 && decide (0 < q) && decide (q ≤ 24)

/-- Method 1 of the interval inference chain: timestamp pair from the live
snapshot, accepted only when in the valid range. -/
def binanceMethod1 (data : BinanceData) : Option ℚ :=
  if jsTruthy data.fundingTimestamp && jsTruthy data.nextFundingTime then
    let interval := calculateFundingInterval data.fundingTimestamp data.nextFundingTime
    if inRange24 interval then interval else none
  else none

/-- Method 2: datetime-string pair (parsed with `new Date(...).getTime()`),
same range check. -/
def binanceMethod2 (data : BinanceData) : Option ℚ :=
  if jsTruthy data.fundingDatetime && jsTruthy data.nextFundingDatetime then
    let interval := calculateFundingInterval data.fundingDatetime data.nextFundingDatetime
    if inRange24 interval then interval else none
  else none

/-- Source `getFundingIntervalForSymbol`: the two most recent history events
(`none` for a failed or thrown fetch; each event timestamp may itself be
absent), run through the Interval Calculator; fewer than 2 events give null. -/
def getFundingIntervalForSymbol (fundingHistory : Option (List (Option ℚ))) : Option ℚ :=
  match fundingHistory with
  | some (t0 :: t1 :: _) => calculateFundingInterval t0 t1
  | _ => none

/-- The `major8HCoins` table of method 4. -/
def major8HCoins : List String :=
  ["BTC", "ETH", "BNB", "XRP", "ADA", "SOL", "DOT", "DOGE", "AVAX", "SHIB",
   "MATIC", "LTC", "UNI", "LINK", "TRX", "BCH", "NEAR", "ATOM", "XLM", "HBAR",
   "VET", "FIL", "ETC", "THETA", "ICP", "MANA", "SAND", "AXS", "ALGO", "EGLD",
   "XTZ", "AAVE", "GRT", "KLAY", "FLOW", "FTM", "LRC", "CRV", "SNX", "COMP"]

/-- The `likely1HCoins` table of method 4. -/
def likely1HCoins : List String :=
  ["FDUSD", "TUSD", "NEIRO", "DOGS", "HMSTR", "CATI", "EIGEN", "SCR", "LUMIA",
   "MEMEFI", "VANA", "VELODROME", "MOVE", "ME", "USUAL", "PENGU", "HYPERLIQUID",
   "ZBT", "DOOD", "MELANIA", "TRUMP", "PNUT", "ACT", "GOAT"]

/-- The `isMemeOrVolatile` test of method 4 (substring checks on the base symbol). -/
def isMemeOrVolatile (baseSymbol : String) : Bool :=
  jsIncludes baseSymbol "DOGE" || jsIncludes baseSymbol "SHIB" ||
  jsIncludes baseSymbol "MEME" || jsIncludes baseSymbol "PEPE" ||
  jsIncludes baseSymbol "FLOKI" || jsIncludes baseSymbol "BONK"

/-- Method 4, the smart fallback of `fetchBinanceFundingRates`: heuristic
classification from the base symbol and the full symbol name. -/
def smartFallback (baseSymbol symbol : String) : ℚ :=
  let is1000Coin := jsStartsWith baseSymbol "1000"
  let isNewCoin := jsIncludes symbol "-" || decide (baseSymbol.length > 6)
  if likely1HCoins.contains baseSymbol || isMemeOrVolatile baseSymbol then 1
  else if major8HCoins.contains baseSymbol || is1000Coin then 8
  else if isNewCoin || decide (baseSymbol.length > 5) then
    if decide (baseSymbol.length ≥ 7) then 2 else 4
  else 4

/-- The four-method chain of `fetchBinanceFundingRates` for one instrument:
`fundingIntervalHours` starts null, each later method runs only while it is
still falsy, and method 4 always assigns.  `hist` is the value
`getFundingIntervalForSymbol` returned and `histAllowed` the
`processedCount < 50` guard. -/
def binanceInferInterval (data : BinanceData) (hist : Option ℚ) (histAllowed : Bool)
    (baseSymbol symbol : String) : ℚ :=
  let i1 := binanceMethod1 data
  let i2 := if i1.isNone then binanceMethod2 data else i1
  let i3 := if i2.isNone && histAllowed then (if inRange24 hist then hist else none) else i2
  match i3 with
  | some q => q
  | none => smartFallback baseSymbol symbol

/-- The record `fetchBinanceFundingRates` pushes for one instrument, given the
inferred interval.  A falsy snapshot rate (null or 0) is stored as the string
literal given in the source, whose value is 0. -/
def mkBinanceRecord (symbol : String) (data : BinanceData) (fundingIntervalHours : ℚ) :
    FundingRecord :=
  { exchange := "BINANCE"
    symbol := jsReplace (takeBeforeColon symbol) "/USDT" ""
    fullSymbol := symbol
    fundingRate :=
      match data.fundingRate with
      | JsRate.num q => if q != 0 then some (toFixed6 (q * 100)) else some 0
      | _ => some 0
    fundingTimestamp := data.fundingTimestamp
    fundingDatetime := data.fundingDatetime
    nextFundingTime :=
      if jsTruthy data.nextFundingTime then data.nextFundingTime else data.fundingTimestamp
    nextFundingDatetime :=
      if jsTruthy data.nextFundingDatetime then data.nextFundingDatetime else data.fundingDatetime
    fundingIntervalHours := fundingIntervalHours
    markPrice := data.markPrice
    indexPrice := data.indexPrice }

/-- One symbol of the Binance snapshot together with the history the source
would return for it: the environment of one iteration of the processing loop. -/
structure BinanceInput where
  symbol : String
  data : Option BinanceData
  fundingHistory : Option (List (Option ℚ))
deriving DecidableEq, Inhabited

/-- The per-symbol processing loop of `fetchBinanceFundingRates`: skips absent
entries and entries whose rate is `undefined`, otherwise pushes a record and
increments `processedCount`.  The second component collects the symbols for
which the historical lookback (method 3) was consulted. -/
def binanceProcess : List BinanceInput → Nat → List FundingRecord × List String
  | [], _ => ([], [])
  | inp :: rest, processedCount =>
    match inp.data with
    | none => binanceProcess rest processedCount
    | some data =>
      if data.fundingRate == JsRate.undef then binanceProcess rest processedCount
      else
        let baseSymbol := jsReplace (takeBeforeColon inp.symbol) "/USDT" ""
        let hist := getFundingIntervalForSymbol inp.fundingHistory
        let histAllowed := decide (processedCount < 50)
        let attempted :=
          (binanceMethod1 data).isNone && (binanceMethod2 data).isNone && histAllowed
        let fundingIntervalHours := binanceInferInterval data hist histAllowed baseSymbol inp.symbol
        let r := mkBinanceRecord inp.symbol data fundingIntervalHours
        let rest2 := binanceProcess rest (processedCount + 1)
        (r :: rest2.1, if attempted then inp.symbol :: rest2.2 else rest2.2)

/-- The symbol order used by the adapters' final sort. -/
def symbolLe (a b : FundingRecord) : Bool := charListLe a.symbol.toList b.symbol.toList

/-- The final per-adapter sort `result.sort((a, b) => a.symbol.localeCompare(b.symbol))`
(a stable comparison sort, modelled by insertion sort). -/
def sortBySymbol (l : List FundingRecord) : List FundingRecord :=
  List.insertionSort (fun a b => symbolLe a b = true) l

/-- Source `fetchBinanceFundingRates` on a successful snapshot: filter to USDT
perpetual symbols, process all of them, sort by symbol. -/
def fetchBinanceFundingRates (inputs : List BinanceInput) : List FundingRecord :=
  let symbols := inputs.filter (fun inp => jsIncludes inp.symbol "USDT" && jsIncludes inp.symbol ":")
  sortBySymbol (binanceProcess symbols 0).1

/-- Source `fetchMexcFundingRates` on a successful direct-API response:
one record per USDT item, sorted by symbol. -/
def fetchMexcFundingRates (data : List MexcItem) : List FundingRecord :=
  sortBySymbol (data.filterMap mexcRecordOfItem)

/-- Outcome of one source's fetch inside the handler: the race of the adapter
promise against the 20s timeout either resolves with records, or rejects
(adapter exception or timeout rejection). -/
inductive FetchOutcome where
  | ok (records : List FundingRecord)
  | failed (message : String)
  | timedOut
deriving Inhabited

/-- The per-source try/catch of the handler: a rejected race (error or
timeout) is caught and the rates variable is assigned `[]`. -/
def settleSource : FetchOutcome → List FundingRecord
  | FetchOutcome.ok records => records
  | FetchOutcome.failed _ => []
  | FetchOutcome.timedOut => []

/-- The two rate lists the handler continues with after both guarded fetches. -/
def handlerRates (binanceOutcome mexcOutcome : FetchOutcome) :
    List FundingRecord × List FundingRecord :=
  (settleSource binanceOutcome, settleSource mexcOutcome)

/-- The per-source projection held by a comparison entry.  The `'N/A'` markers
of the single-source fallback entries are modelled as `none`. -/
structure SideProjection where
  fundingRate : Option ℚ
  fundingIntervalHours : Option ℚ
  nextFundingDatetime : Option ℚ
  markPrice : Option ℚ
deriving DecidableEq, Inhabited

/-- One row of the handler's comparison table. -/
structure ComparisonEntry where
  symbol : String
  binance : SideProjection
  mexc : SideProjection
  fundingRateDifference : Option ℚ
  absoluteDifference : Option ℚ
  favorableExchange : String
  differenceCategory : String
deriving DecidableEq, Inhabited

/-- Lookup in the symbol-keyed object map the handler builds with `forEach`
(`map[item.symbol] = item`): the last record with that symbol wins. -/
def mapLookup (l : List FundingRecord) (symbol : String) : Option FundingRecord :=
  (l.filter (fun r => r.symbol == symbol)).getLast?

/-- Key universe of a JS `Set` built from both maps' keys: first occurrence
order, duplicates removed (`seen` accumulates the keys already emitted). -/
def dedupFirstAux (seen : List String) : List String → List String
  | [] => []
  | s :: rest =>
    if seen.contains s then dedupFirstAux seen rest
    else s :: dedupFirstAux (s :: seen) rest

/-- The key universe of one run, in first-occurrence order. -/
def dedupFirst (l : List String) : List String := dedupFirstAux [] l

/-- The entry the handler pushes for a symbol present on both exchanges. -/
def mkComparisonEntry (symbol : String) (binanceData mexcData : FundingRecord) :
    ComparisonEntry :=
  let binanceRate := jsOr0 binanceData.fundingRate
  let mexcRate := jsOr0 mexcData.fundingRate
  let difference := mexcRate - binanceRate
  { symbol := symbol
    binance :=
      { fundingRate := binanceData.fundingRate
        fundingIntervalHours := some binanceData.fundingIntervalHours
        nextFundingDatetime := binanceData.nextFundingDatetime
        markPrice := binanceData.markPrice }
    mexc :=
      { fundingRate := mexcData.fundingRate
        fundingIntervalHours := some mexcData.fundingIntervalHours
        nextFundingDatetime := mexcData.nextFundingDatetime
        markPrice := mexcData.markPrice }
    fundingRateDifference := some (toFixed6 difference)
    absoluteDifference := some (toFixed6 (abs difference))
    favorableExchange :=
      if 0 < difference then "BINANCE" else if difference < 0 then "MEXC" else "EQUAL"
    differenceCategory :=
      if (1/10 : ℚ) ≤ abs difference then "HIGH"
      else if (1/20 : ℚ) ≤ abs difference then "MEDIUM" else "LOW" }

/-- The `allSymbols.forEach` loop: an entry per symbol present on both
exchanges with at least one non-null rate. -/
def buildComparisonTable (binanceRates mexcRates : List FundingRecord) :
    List ComparisonEntry :=
  let allSymbols :=
    dedupFirst (binanceRates.map FundingRecord.symbol ++ mexcRates.map FundingRecord.symbol)
  allSymbols.filterMap (fun symbol =>
    match mapLookup binanceRates symbol, mapLookup mexcRates symbol with
    | some binanceData, some mexcData =>
      if binanceData.fundingRate.isSome || mexcData.fundingRate.isSome then
        some (mkComparisonEntry symbol binanceData mexcData)
      else none
    | _, _ => none)

/-- The `comparisonTable.sort` by signed difference, ascending. -/
def sortComparisonTable (table : List ComparisonEntry) : List ComparisonEntry :=
  List.insertionSort
    (fun a b => jsOr0 a.fundingRateDifference ≤ jsOr0 b.fundingRateDifference) table

/-- The sorted comparison table of one run. -/
def comparisonTableOf (binanceRates mexcRates : List FundingRecord) : List ComparisonEntry :=
  sortComparisonTable (buildComparisonTable binanceRates mexcRates)

/-- A fallback row for a record only Binance has. -/
def binanceOnlyEntry (item : FundingRecord) : ComparisonEntry :=
  { symbol := item.symbol
    binance :=
      { fundingRate := item.fundingRate
        fundingIntervalHours := some item.fundingIntervalHours
        nextFundingDatetime := item.nextFundingDatetime
        markPrice := item.markPrice }
    mexc := { fundingRate := none, fundingIntervalHours := none,
              nextFundingDatetime := none, markPrice := none }
    fundingRateDifference := none
    absoluteDifference := none
    favorableExchange := "BINANCE_ONLY"
    differenceCategory := "N/A" }

/-- A fallback row for a record only MEXC has. -/
def mexcOnlyEntry (item : FundingRecord) : ComparisonEntry :=
  { symbol := item.symbol
    binance := { fundingRate := none, fundingIntervalHours := none,
                 nextFundingDatetime := none, markPrice := none }
    mexc :=
      { fundingRate := item.fundingRate
        fundingIntervalHours := some item.fundingIntervalHours
        nextFundingDatetime := item.nextFundingDatetime
        markPrice := item.markPrice }
    fundingRateDifference := none
    absoluteDifference := none
    favorableExchange := "MEXC_ONLY"
    differenceCategory := "N/A" }

/-- The handler's `finalTableData`: the comparison table, or, when it is
empty, the top-10 rows of each source as single-source entries. -/
def finalTableData (binanceRates mexcRates : List FundingRecord) : List ComparisonEntry :=
  let comparisonTable := comparisonTableOf binanceRates mexcRates
  if comparisonTable.length == 0 then
    (binanceRates.take 10).map binanceOnlyEntry ++ (mexcRates.take 10).map mexcOnlyEntry
  else comparisonTable

/-- Snapshot fields read by the generic adapter of the earlier variant
(src/unnamed/part_000, `fetchFundingRates`). -/
structure V0Data where
  fundingRate : Option ℚ
  fundingTimestamp : Option ℚ
  fundingDatetime : Option ℚ
  nextFundingTime : Option ℚ
  nextFundingDatetime : Option ℚ
  markPrice : Option ℚ
  indexPrice : Option ℚ
deriving DecidableEq, Inhabited

/-- One symbol's environment for the part_000 adapter. -/
structure V0Input where
  symbol : String
  data : V0Data
  fundingHistory : Option (List (Option ℚ))
deriving DecidableEq, Inhabited

/-- The interval chain of part_000's `fetchFundingRates`: timestamp pair, then
history, then the constant 8 — with plain falsiness guards and no range
validation anywhere. -/
def v0InferInterval (data : V0Data) (hist : Option ℚ) : ℚ :=
  let i1 :=
    if jsTruthy data.fundingTimestamp && jsTruthy data.nextFundingTime then
      calculateFundingInterval data.fundingTimestamp data.nextFundingTime
    else none
  let i2 := if jsFalsy i1 then hist else i1
  match i2 with
  | some q => if q == 0 then 8 else q
  | none => 8

/-- The record part_000's `fetchFundingRates` pushes for one instrument. -/
def mkV0Record (exchangeName : String) (inp : V0Input) : FundingRecord :=
  { exchange := jsToUpper exchangeName
    symbol := jsReplace (takeBeforeColon inp.symbol) "/USDT" ""
    fullSymbol := inp.symbol
    fundingRate :=
      match inp.data.fundingRate with
      | some q => if q != 0 then some (toFixed6 (q * 100)) else none
      | none => none
    fundingTimestamp := inp.data.fundingTimestamp
    fundingDatetime := inp.data.fundingDatetime
    nextFundingTime := inp.data.nextFundingTime
    nextFundingDatetime := inp.data.nextFundingDatetime
    fundingIntervalHours :=
      v0InferInterval inp.data (getFundingIntervalForSymbol inp.fundingHistory)
    markPrice := inp.data.markPrice
    indexPrice := inp.data.indexPrice }

/-- part_000's `fetchFundingRates` result: records in completion order
(modelled as input order) — this variant performs no sort before returning. -/
def fetchFundingRatesV0 (exchangeName : String) (inputs : List V0Input) :
    List FundingRecord :=
  (inputs.filter (fun inp => jsIncludes inp.symbol ":" && jsIncludes inp.symbol "USDT")).map
    (mkV0Record exchangeName)

/-- part_000's `averageFundingRate` summary statistic: unavailable rates are
zero-filled by `parseFloat(item.fundingRate) || 0`. -/
def averageFundingRate (allRates : List FundingRecord) : ℚ :=
  if 0 < allRates.length then
    toFixed6 ((allRates.map (fun item => jsOr0 item.fundingRate)).sum / allRates.length)
  else 0

/-- Priority resolution as the spec words it: the first candidate lying in
the valid range (0, 24], if any.  Written from the spec, for comparison with
the method chain embedded from the source. -/
def firstInRange : List (Option ℚ) → Option ℚ
  | [] => none
  | c :: rest => if inRange24 c then c else firstInRange rest

/-- The heuristic classification as the spec words it, as a function of the
base symbol alone.  Written from the spec, for comparison with `smartFallback`
embedded from the source. -/
def heuristicSpec (baseSymbol : String) : ℚ :=
  if likely1HCoins.contains baseSymbol || isMemeOrVolatile baseSymbol then 1
  else if major8HCoins.contains baseSymbol || jsStartsWith baseSymbol "1000" then 8
  else if baseSymbol.length ≥ 7 then 2 else 4

/-- A Binance record holding rate 0.01 % for symbol BTC. -/
def btcBinanceRecord : FundingRecord :=
  { exchange := "BINANCE"
    symbol := "BTC"
    fullSymbol := "BTC/USDT:USDT"
    fundingRate := some (1/100)
    fundingTimestamp := none
    fundingDatetime := none
    nextFundingTime := none
    nextFundingDatetime := none
    fundingIntervalHours := 8
    markPrice := none
    indexPrice := none }

/-- A MEXC record holding rate −0.02 % for symbol BTC. -/
def btcMexcRecord : FundingRecord :=
  { btcBinanceRecord with exchange := "MEXC", fundingRate := some (-1/50) }

/-- A MEXC payload item whose `collectCycle` is the (out-of-range) number 100. -/
def item100 : MexcItem :=
  { symbol := some "BTC_USDT"
    fundingRate := some (1/10000)
    collectCycle := some 100
    nextSettleTime := some 1700028800000 }

/-- A MEXC payload item carrying no rate, no interval and no settle time. -/
def itemBare : MexcItem :=
  { symbol := some "ETH_USDT"
    fundingRate := none
    collectCycle := none
    nextSettleTime := none }

/-- The record `mexcRecordOfItem` produces for `itemBare`. -/
def mexcRecordETH : FundingRecord :=
  { exchange := "MEXC"
    symbol := "ETH"
    fullSymbol := "ETH/USDT:USDT"
    fundingRate := none
    fundingTimestamp := none
    fundingDatetime := none
    nextFundingTime := none
    nextFundingDatetime := none
    fundingIntervalHours := 8
    markPrice := none
    indexPrice := none }

/-- A Binance snapshot entry whose rate is JS `null` and which exposes no
timestamp data at all. -/
def nullRateData : BinanceData :=
  { fundingRate := JsRate.null
    fundingTimestamp := none
    nextFundingTime := none
    fundingDatetime := none
    nextFundingDatetime := none
    markPrice := none
    indexPrice := none }

/-- A processing-loop input wrapping `nullRateData`. -/
def inpNullRate : BinanceInput :=
  { symbol := "ABC/USDT:USDT"
    data := some nullRateData
    fundingHistory := none }

/-- A Binance snapshot entry with a rate and a consistent 8-hour pair of
settlement timestamps. -/
def btcData : BinanceData :=
  { fundingRate := JsRate.num (1/10000)
    fundingTimestamp := some 1700000000000
    nextFundingTime := some 1700028800000
    fundingDatetime := none
    nextFundingDatetime := none
    markPrice := none
    indexPrice := none }

/-- A processing-loop input wrapping `btcData`. -/
def inpBTC : BinanceInput :=
  { symbol := "BTC/USDT:USDT"
    data := some btcData
    fundingHistory := none }

/-- A part_000 instrument with no snapshot data at all, symbol ZZZ. -/
def v0InputZ : V0Input :=
  { symbol := "ZZZ/USDT:USDT"
    data :=
      { fundingRate := none
        fundingTimestamp := none
        fundingDatetime := none
        nextFundingTime := none
        nextFundingDatetime := none
        markPrice := none
        indexPrice := none }
    fundingHistory := none }

/-- A part_000 instrument with no snapshot data at all, symbol AAA. -/
def v0InputA : V0Input :=
  { v0InputZ with symbol := "AAA/USDT:USDT" }

/-! ### Supporting lemmas -/

/-- Rounding a non-positive quantity gives a non-positive integer. -/
lemma jsRound_nonpos {q : ℚ} (h : q ≤ 0) : ∃ k : ℤ, k ≤ 0 ∧ jsRound q = (k : ℚ) := by
  refine ⟨⌊q + 1/2⌋, ?_, rfl⟩
  have h2 : ⌊q + 1/2⌋ ≤ ⌊(1/2 : ℚ)⌋ := Int.floor_le_floor (by linarith)
  have h3 : ⌊(1/2 : ℚ)⌋ = 0 := by norm_num
  omega

/-- The range check rejects a null candidate. -/
lemma inRange24_none : inRange24 none = false := rfl

/-- What passing the call-site range check means. -/
lemma inRange24_some {o : Option ℚ} (h : inRange24 o = true) :
    ∃ q, o = some q ∧ 0 < q ∧ q ≤ 24 := by
  cases o with
  | none => simp [inRange24] at h
  | some q =>
    simp only [inRange24, Bool.and_eq_true, decide_eq_true_eq] at h
    exact ⟨q, rfl, h.1.2, h.2⟩

/-- Method 1 either produces nothing or an in-range value. -/
lemma binanceMethod1_none_or_inRange (data : BinanceData) :
    binanceMethod1 data = none ∨ inRange24 (binanceMethod1 data) = true := by
  unfold binanceMethod1
  split
  · dsimp only
    split
    · rename_i h
      exact Or.inr h
    · exact Or.inl rfl
  · exact Or.inl rfl

/-- Method 2 either produces nothing or an in-range value. -/
lemma binanceMethod2_none_or_inRange (data : BinanceData) :
    binanceMethod2 data = none ∨ inRange24 (binanceMethod2 data) = true := by
  unfold binanceMethod2
  split
  · dsimp only
    split
    · rename_i h
      exact Or.inr h
    · exact Or.inl rfl
  · exact Or.inl rfl

/-- A successful priority resolution yields an in-range value. -/
lemma firstInRange_some : ∀ {l : List (Option ℚ)} {q : ℚ},
    firstInRange l = some q → 0 < q ∧ q ≤ 24
  | [], q, h => by simp [firstInRange] at h
  | c :: rest, q, h => by
    by_cases hc : inRange24 c = true
    · rw [firstInRange, if_pos hc] at h
      obtain ⟨q2, rfl, hq⟩ := inRange24_some hc
      cases h
      exact hq
    · rw [firstInRange, if_neg hc] at h
      exact firstInRange_some h

/-- The source's method 4 computes the same classification as the spec-side
rule, which reads only the base symbol. -/
lemma smartFallback_eq_heuristicSpec (baseSymbol symbol : String) :
    smartFallback baseSymbol symbol = heuristicSpec baseSymbol := by
  simp only [smartFallback, heuristicSpec, Bool.or_eq_true, decide_eq_true_eq]
  split_ifs <;> first | rfl | (push_neg at *; omega)

/-- The classification takes one of the four documented values. -/
lemma heuristicSpec_values (baseSymbol : String) :
    heuristicSpec baseSymbol = 1 ∨ heuristicSpec baseSymbol = 2 ∨
    heuristicSpec baseSymbol = 4 ∨ heuristicSpec baseSymbol = 8 := by
  unfold heuristicSpec
  split_ifs <;> simp

/-- The classification value is a valid interval. -/
lemma heuristicSpec_range (baseSymbol : String) :
    0 < heuristicSpec baseSymbol ∧ heuristicSpec baseSymbol ≤ 24 := by
  rcases heuristicSpec_values baseSymbol with h | h | h | h <;> rw [h] <;> norm_num

/-- The embedded method chain is exactly first-in-range resolution with the
heuristic fallback. -/
lemma binanceInferInterval_eq (data : BinanceData) (hist : Option ℚ) (histAllowed : Bool)
    (baseSymbol symbol : String) :
    binanceInferInterval data hist histAllowed baseSymbol symbol =
      (firstInRange [binanceMethod1 data, binanceMethod2 data,
        if histAllowed then hist else none]).getD (smartFallback baseSymbol symbol) := by
  unfold binanceInferInterval
  cases hm1 : binanceMethod1 data with
  | some q1 =>
    have hr1 : inRange24 (some q1) = true := by
      rcases binanceMethod1_none_or_inRange data with h | h
      · rw [hm1] at h
        cases h
      · rwa [hm1] at h
    simp [firstInRange, hm1, hr1]
  | none =>
    cases hm2 : binanceMethod2 data with
    | some q2 =>
      have hr2 : inRange24 (some q2) = true := by
        rcases binanceMethod2_none_or_inRange data with h | h
        · rw [hm2] at h
          cases h
        · rwa [hm2] at h
      simp [firstInRange, hm1, hm2, hr2, inRange24_none]
    | none =>
      cases histAllowed with
      | false => simp [firstInRange, hm1, hm2, inRange24_none]
      | true =>
        cases hr : inRange24 hist with
        | true =>
          obtain ⟨q, rfl, _, _⟩ := inRange24_some hr
          simp [firstInRange, hm1, hm2, hr, inRange24_none]
        | false =>
          cases hist with
          | none => simp [firstInRange, hm1, hm2, inRange24_none]
          | some q => simp [firstInRange, hm1, hm2, hr, inRange24_none]

/-- The inferred interval is always valid. -/
lemma binanceInferInterval_range (data : BinanceData) (hist : Option ℚ) (histAllowed : Bool)
    (baseSymbol symbol : String) :
    0 < binanceInferInterval data hist histAllowed baseSymbol symbol ∧
    binanceInferInterval data hist histAllowed baseSymbol symbol ≤ 24 := by
  rw [binanceInferInterval_eq]
  cases hf : firstInRange [binanceMethod1 data, binanceMethod2 data,
      if histAllowed then hist else none] with
  | none =>
    rw [smartFallback_eq_heuristicSpec]
    simpa using heuristicSpec_range baseSymbol
  | some q => simpa using firstInRange_some hf

/-- Every record the Binance processing loop pushes carries a valid interval. -/
lemma binanceProcess_range : ∀ (inputs : List BinanceInput) (count : Nat)
    (r : FundingRecord), r ∈ (binanceProcess inputs count).1 →
    0 < r.fundingIntervalHours ∧ r.fundingIntervalHours ≤ 24
  | [], _, r, h => by simp [binanceProcess] at h
  | inp :: rest, count, r, h => by
    rw [binanceProcess] at h
    cases hd : inp.data with
    | none =>
      rw [hd] at h
      exact binanceProcess_range rest count r h
    | some data =>
      rw [hd] at h
      dsimp only at h
      by_cases hu : (data.fundingRate == JsRate.undef) = true
      · rw [if_pos hu] at h
        exact binanceProcess_range rest count r h
      · rw [if_neg hu] at h
        simp only [List.mem_cons] at h
        rcases h with rfl | h
        · simpa [mkBinanceRecord] using binanceInferInterval_range data
            (getFundingIntervalForSymbol inp.fundingHistory) (decide (count < 50))
            (jsReplace (takeBeforeColon inp.symbol) "/USDT" "") inp.symbol
        · exact binanceProcess_range rest (count + 1) r h

/-- The history lookback is consulted for at most `50 - count` further
instruments once `count` have already been processed. -/
lemma binanceProcess_attempts_le : ∀ (inputs : List BinanceInput) (count : Nat),
    (binanceProcess inputs count).2.length ≤ 50 - count
  | [], _ => by simp [binanceProcess]
  | inp :: rest, count => by
    rw [binanceProcess]
    cases hd : inp.data with
    | none => exact binanceProcess_attempts_le rest count
    | some data =>
      dsimp only
      by_cases hu : (data.fundingRate == JsRate.undef) = true
      · rw [if_pos hu]
        exact binanceProcess_attempts_le rest count
      · rw [if_neg hu]
        have ih := binanceProcess_attempts_le rest (count + 1)
        by_cases ha : ((binanceMethod1 data).isNone && (binanceMethod2 data).isNone &&
            decide (count < 50)) = true
        · have hc : count < 50 := by
            have ha2 := ha
            simp only [Bool.and_eq_true, decide_eq_true_eq] at ha2
            exact ha2.2
          rw [if_pos ha]
          dsimp only
          simp only [List.length_cons]
          omega
        · rw [if_neg ha]
          dsimp only
          omega

/-- A record produced with `mexcRecordOfItem` copies a truthy numeric
`collectCycle` into the interval field unchanged, and defaults to 8 otherwise. -/
lemma mexcRecordOfItem_interval {item : MexcItem} {r : FundingRecord}
    (h : mexcRecordOfItem item = some r) :
    r.fundingIntervalHours =
      (match item.collectCycle with
       | some q => if q != 0 then q else 8
       | none => 8) := by
  unfold mexcRecordOfItem at h
  cases hs : item.symbol with
  | none => rw [hs] at h; cases h
  | some sym =>
    rw [hs] at h
    dsimp only at h
    by_cases hu : (jsIncludes sym "USDT") = true
    · rw [if_pos hu] at h
      cases h
      rfl
    · rw [if_neg hu] at h
      cases h

/-- The code-unit order is total. -/
lemma charListLe_total : ∀ as bs : List Char, charListLe as bs = true ∨ charListLe bs as = true
  | [], _ => Or.inl rfl
  | _ :: _, [] => Or.inr rfl
  | a :: as, b :: bs => by
    rcases lt_trichotomy a b with h | h | h
    · left
      simp [charListLe, h]
    · subst h
      rcases charListLe_total as bs with ih | ih
      · left
        simp [charListLe, ih]
      · right
        simp [charListLe, ih]
    · right
      simp [charListLe, h]

/-- The code-unit order is transitive. -/
lemma charListLe_trans : ∀ as bs cs : List Char,
    charListLe as bs = true → charListLe bs cs = true → charListLe as cs = true
  | [], _, _, _, _ => rfl
  | _ :: _, [], _, h1, _ => by simp [charListLe] at h1
  | _ :: _, _ :: _, [], _, h2 => by simp [charListLe] at h2
  | a :: as, b :: bs, c :: cs, h1, h2 => by
    simp only [charListLe, Bool.or_eq_true, Bool.and_eq_true, decide_eq_true_eq,
      beq_iff_eq] at h1 h2 ⊢
    rcases h1 with h1 | ⟨he1, h1⟩
    · rcases h2 with h2 | ⟨he2, h2⟩
      · exact Or.inl (h1.trans h2)
      · subst he2
        exact Or.inl h1
    · subst he1
      rcases h2 with h2 | ⟨he2, h2⟩
      · exact Or.inl h2
      · subst he2
        exact Or.inr ⟨rfl, charListLe_trans as bs cs h1 h2⟩

instance : IsTotal FundingRecord (fun a b => symbolLe a b = true) :=
  ⟨fun a b => charListLe_total a.symbol.toList b.symbol.toList⟩

instance : IsTrans FundingRecord (fun a b => symbolLe a b = true) :=
  ⟨fun _ _ _ h1 h2 => charListLe_trans _ _ _ h1 h2⟩

/-- Membership in the accumulator-based deduplication. -/
lemma mem_dedupFirstAux {a : String} : ∀ {l seen : List String},
    a ∈ dedupFirstAux seen l ↔ a ∈ l ∧ a ∉ seen
  | [], seen => by simp [dedupFirstAux]
  | s :: rest, seen => by
    rw [dedupFirstAux]
    by_cases h : seen.contains s
    · have hs : s ∈ seen := by simpa using h
      rw [if_pos h, mem_dedupFirstAux]
      constructor
      · rintro ⟨h1, h2⟩
        exact ⟨List.mem_cons_of_mem _ h1, h2⟩
      · rintro ⟨h1, h2⟩
        rcases List.mem_cons.1 h1 with rfl | h1
        · exact absurd hs h2
        · exact ⟨h1, h2⟩
    · have hs : s ∉ seen := by simpa using h
      rw [if_neg h]
      simp only [List.mem_cons, mem_dedupFirstAux]
      constructor
      · rintro (rfl | ⟨h1, h2⟩)
        · exact ⟨Or.inl rfl, hs⟩
        · exact ⟨Or.inr h1, fun hmem => h2 (Or.inr hmem)⟩
      · rintro ⟨rfl | h1, h2⟩
        · exact Or.inl rfl
        · by_cases has : a = s
          · exact Or.inl has
          · right
            refine ⟨h1, fun hmem => ?_⟩
            rcases hmem with h3 | h3
            · exact has h3
            · exact h2 h3

/-- Deduplication does not change the key universe. -/
lemma mem_dedupFirst {a : String} {l : List String} : a ∈ dedupFirst l ↔ a ∈ l := by
  rw [dedupFirst, mem_dedupFirstAux]
  simp

/-- A successful map lookup returns a member record keyed by the symbol. -/
lemma mapLookup_some {l : List FundingRecord} {s : String} {b : FundingRecord}
    (h : mapLookup l s = some b) : b ∈ l ∧ b.symbol = s := by
  unfold mapLookup at h
  obtain ⟨ys, hys⟩ := List.getLast?_eq_some_iff.1 h
  have hb : b ∈ l.filter (fun r => r.symbol == s) := by
    rw [hys]
    simp
  refine ⟨List.mem_of_mem_filter hb, ?_⟩
  have := List.of_mem_filter hb
  simpa using this

/-- The entry built for a symbol both maps contain (with at least one non-null
rate) belongs to the comparison table. -/
lemma mkComparisonEntry_mem_buildComparisonTable
    {binanceRates mexcRates : List FundingRecord} {s : String} {b m : FundingRecord}
    (hb : mapLookup binanceRates s = some b) (hm : mapLookup mexcRates s = some m)
    (hr : b.fundingRate.isSome ∨ m.fundingRate.isSome) :
    mkComparisonEntry s b m ∈ buildComparisonTable binanceRates mexcRates := by
  unfold buildComparisonTable
  apply List.mem_filterMap.2
  refine ⟨s, ?_, ?_⟩
  · apply mem_dedupFirst.2
    apply List.mem_append_left
    exact List.mem_map.2 ⟨b, (mapLookup_some hb).1, (mapLookup_some hb).2⟩
  · rw [hb, hm]
    have : (b.fundingRate.isSome || m.fundingRate.isSome) = true := by
      rcases hr with h | h <;> simp [h]
    dsimp only
    rw [if_pos this]

/-! ### Claim theorems -/

/-- C2 counterexample: with both timestamps present but the current one equal
to 0, the calculator returns null instead of the rounded difference
`Math.round((next − current) / 3600000)` the claim prescribes for present
inputs. -/
theorem calculateFundingInterval_zero_counterexample :
    calculateFundingInterval (some 0) (some 28800000) = none ∧
    some (jsRound ((28800000 - 0) / 3600000)) ≠ (none : Option ℚ) := by
  constructor
  · norm_num [calculateFundingInterval]
  · simp

/-- C2 (amended): the Interval Calculator returns null when either settlement
timestamp is missing or equal to 0, and otherwise returns
`Math.round((next − current) / 3600000)`; in particular current =
1700000000000 ms and next = 1700028800000 ms yield exactly 8. -/
theorem calculateFundingInterval_spec :
    (∀ currentTime nextTime : Option ℚ,
      (currentTime = none ∨ nextTime = none ∨ currentTime = some 0 ∨ nextTime = some 0) →
        calculateFundingInterval currentTime nextTime = none) ∧
    (∀ c n : ℚ, c ≠ 0 → n ≠ 0 →
        calculateFundingInterval (some c) (some n) = some (jsRound ((n - c) / 3600000))) ∧
    calculateFundingInterval (some 1700000000000) (some 1700028800000) = some 8 := by
  refine ⟨?_, ?_, ?_⟩
  · rintro currentTime nextTime (rfl | rfl | rfl | rfl)
    · rfl
    · cases currentTime <;> rfl
    · cases nextTime <;> norm_num [calculateFundingInterval]
    · cases currentTime <;> norm_num [calculateFundingInterval]
  · intro c n hc hn
    have : ((1000 : ℚ) * 60 * 60) = 3600000 := by norm_num
    simp [calculateFundingInterval, hc, hn, this]
  · norm_num [calculateFundingInterval, jsRound]

/-- C2 witness: the amended statement evaluated on the documented example. -/
theorem calculateFundingInterval_spec_witness :
    calculateFundingInterval (some 1700000000000) (some 1700028800000) =
      some (jsRound ((1700028800000 - 1700000000000) / 3600000)) :=
  calculateFundingInterval_spec.2.1 1700000000000 1700028800000
    (by norm_num) (by norm_num)

/-- C10: the calculator treats a zero timestamp exactly like a missing one;
with both inputs present (and nonzero) and next ≤ current it returns 0 or a
negative integer without clamping; the (0, 24] range is enforced only by the
call-site checks of methods 1 and 2. -/
theorem calculateFundingInterval_falsy_unclamped :
    (∀ t : Option ℚ,
      calculateFundingInterval (some 0) t = calculateFundingInterval none t ∧
      calculateFundingInterval t (some 0) = calculateFundingInterval t none) ∧
    (∀ c n : ℚ, c ≠ 0 → n ≠ 0 → n ≤ c →
      ∃ k : ℤ, k ≤ 0 ∧ calculateFundingInterval (some c) (some n) = some (k : ℚ)) ∧
    (∀ data : BinanceData,
      (binanceMethod1 data = none ∨ ∃ q, binanceMethod1 data = some q ∧ 0 < q ∧ q ≤ 24) ∧
      (binanceMethod2 data = none ∨ ∃ q, binanceMethod2 data = some q ∧ 0 < q ∧ q ≤ 24)) := by
  refine ⟨?_, ?_, ?_⟩
  · intro t
    constructor
    · cases t with
      | none => rfl
      | some q => norm_num [calculateFundingInterval]
    · cases t with
      | none => rfl
      | some q => norm_num [calculateFundingInterval]
  · intro c n hc hn hle
    have hq : (n - c) / (1000 * 60 * 60) ≤ (0 : ℚ) := by
      rw [div_nonpos_iff]
      right
      constructor <;> linarith
    obtain ⟨k, hk, hjk⟩ := jsRound_nonpos hq
    refine ⟨k, hk, ?_⟩
    simp [calculateFundingInterval, hc, hn, hjk]
  · intro data
    constructor
    · rcases binanceMethod1_none_or_inRange data with h | h
      · exact Or.inl h
      · exact Or.inr (inRange24_some h)
    · rcases binanceMethod2_none_or_inRange data with h | h
      · exact Or.inl h
      · exact Or.inr (inRange24_some h)

/-- C10 witness: a reversed pair of present timestamps (2 h before 1 h)
produces a non-positive interval. -/
theorem calculateFundingInterval_falsy_unclamped_witness :
    ∃ k : ℤ, k ≤ 0 ∧ calculateFundingInterval (some 7200000) (some 3600000) = some (k : ℚ) :=
  calculateFundingInterval_falsy_unclamped.2.1 7200000 3600000
    (by norm_num) (by norm_num) (by norm_num)

/-- C6: a source whose fetch rejects (error) or loses the timeout race
contributes exactly an empty record list, the per-source catch absorbs the
rejection, and the other source's contribution is independent of it. -/
theorem orchestrator_source_isolation :
    ∀ (b m : FetchOutcome) (message : String),
      handlerRates (FetchOutcome.failed message) m = ([], settleSource m) ∧
      handlerRates FetchOutcome.timedOut m = ([], settleSource m) ∧
      handlerRates b (FetchOutcome.failed message) = (settleSource b, []) ∧
      handlerRates b FetchOutcome.timedOut = (settleSource b, []) ∧
      (handlerRates b m).1 = settleSource b ∧
      (handlerRates b m).2 = settleSource m :=
  fun _ _ _ => ⟨rfl, rfl, rfl, rfl, rfl, rfl⟩

/-- C4: the heuristic fallback equals a classification that reads only the
base symbol (so the same base symbol always yields the same interval), and
its value is always one of 1, 2, 4, 8. -/
theorem smartFallback_deterministic :
    ∀ baseSymbol symbol : String,
      smartFallback baseSymbol symbol = heuristicSpec baseSymbol ∧
      (smartFallback baseSymbol symbol = 1 ∨ smartFallback baseSymbol symbol = 2 ∨
       smartFallback baseSymbol symbol = 4 ∨ smartFallback baseSymbol symbol = 8) := by
  intro baseSymbol symbol
  refine ⟨smartFallback_eq_heuristicSpec baseSymbol symbol, ?_⟩
  rw [smartFallback_eq_heuristicSpec]
  exact heuristicSpec_values baseSymbol

/-- C3: the four inference methods resolve in strict priority order — the
result is the first in-range candidate among method 1, method 2 and (when
allowed) the historical lookback, with the heuristic fallback otherwise — and
one run consults the historical lookback for at most 50 instruments. -/
theorem binance_interval_priority_and_cap :
    (∀ (data : BinanceData) (hist : Option ℚ) (histAllowed : Bool)
        (baseSymbol symbol : String),
      binanceInferInterval data hist histAllowed baseSymbol symbol =
        (firstInRange [binanceMethod1 data, binanceMethod2 data,
          if histAllowed then hist else none]).getD (smartFallback baseSymbol symbol)) ∧
    (∀ inputs : List BinanceInput, (binanceProcess inputs 0).2.length ≤ 50) :=
  ⟨binanceInferInterval_eq, fun inputs => by
    simpa using binanceProcess_attempts_le inputs 0⟩

/-- C1 counterexample: with Binance rate 0.01 and MEXC rate −0.02 the entry
has differential −0.03 but `favorableExchange` is MEXC (the lower-rate,
second source), not BINANCE as the claim requires for the higher-rate first
source. -/
theorem comparison_favorable_counterexample :
    (buildComparisonTable [btcBinanceRecord] [btcMexcRecord]).map
      (fun e => (e.fundingRateDifference, e.favorableExchange)) =
      [(some (-3/100), "MEXC")] ∧
    ("MEXC" : String) ≠ "BINANCE" := by
  constructor
  · norm_num [buildComparisonTable, btcBinanceRecord, btcMexcRecord, dedupFirst, dedupFirstAux,
      mapLookup, mkComparisonEntry, jsOr0, toFixed6, jsRound, List.filterMap_cons,
      List.filterMap_nil]
  · decide

/-- C1 (amended): for every symbol present in both sources with at least one
non-null rate, the entry's differential is rate(MEXC) − rate(Binance) rounded
to six decimals, and `favorableExchange` names the source whose rate is
LOWER (BINANCE when the difference is positive, MEXC when negative), or EQUAL
on exact tie. -/
theorem comparison_differential_favorable :
    ∀ (binanceRates mexcRates : List FundingRecord) (symbol : String)
      (b m : FundingRecord),
      mapLookup binanceRates symbol = some b →
      mapLookup mexcRates symbol = some m →
      (b.fundingRate.isSome ∨ m.fundingRate.isSome) →
      ∃ e ∈ comparisonTableOf binanceRates mexcRates,
        e.symbol = symbol ∧
        e.fundingRateDifference =
          some (toFixed6 (jsOr0 m.fundingRate - jsOr0 b.fundingRate)) ∧
        e.favorableExchange =
          (if jsOr0 b.fundingRate < jsOr0 m.fundingRate then "BINANCE"
           else if jsOr0 m.fundingRate < jsOr0 b.fundingRate then "MEXC" else "EQUAL") := by
  intro bR mR s b m hb hm hr
  refine ⟨mkComparisonEntry s b m, ?_, rfl, rfl, ?_⟩
  · unfold comparisonTableOf sortComparisonTable
    rw [List.mem_insertionSort]
    exact mkComparisonEntry_mem_buildComparisonTable hb hm hr
  · unfold mkComparisonEntry
    dsimp only
    simp only [sub_pos, sub_neg]

/-- C1 witness: the amended statement evaluated on the documented BTC
example. -/
theorem comparison_differential_favorable_witness :
    ∃ e ∈ comparisonTableOf [btcBinanceRecord] [btcMexcRecord],
      e.symbol = "BTC" ∧
      e.fundingRateDifference =
        some (toFixed6 (jsOr0 btcMexcRecord.fundingRate - jsOr0 btcBinanceRecord.fundingRate)) ∧
      e.favorableExchange =
        (if jsOr0 btcBinanceRecord.fundingRate < jsOr0 btcMexcRecord.fundingRate then "BINANCE"
         else if jsOr0 btcMexcRecord.fundingRate < jsOr0 btcBinanceRecord.fundingRate then "MEXC"
         else "EQUAL") :=
  comparison_differential_favorable [btcBinanceRecord] [btcMexcRecord] "BTC"
    btcBinanceRecord btcMexcRecord rfl rfl (Or.inl rfl)

/-- C5 counterexample: a MEXC item whose `collectCycle` is 100 produces a
record with `fundingIntervalHours` = 100, outside (0, 24] — the adapter
copies the value without any range validation. -/
theorem mexc_collectCycle_counterexample :
    (fetchMexcFundingRates [item100]).map (fun r => r.fundingIntervalHours) = [100] ∧
    ¬ ((100 : ℚ) ≤ 24) := by
  constructor
  · norm_num [fetchMexcFundingRates, mexcRecordOfItem, sortBySymbol, item100, jsIncludes,
      containsList, isPrefixList, jsToUpper, jsReplace, replaceFirstList, List.insertionSort]
  · norm_num

/-- C5 (amended): every record of the Binance adapter carries an interval in
(0, 24]; the MEXC direct-path adapter always sets a non-null interval —
`collectCycle` when that is a truthy number (unvalidated), 8 otherwise. -/
theorem adapter_interval_nonnull_range :
    (∀ (inputs : List BinanceInput) (count : Nat) (r : FundingRecord),
      r ∈ (binanceProcess inputs count).1 →
      0 < r.fundingIntervalHours ∧ r.fundingIntervalHours ≤ 24) ∧
    (∀ (item : MexcItem) (r : FundingRecord), mexcRecordOfItem item = some r →
      r.fundingIntervalHours =
        (match item.collectCycle with
         | some q => if q != 0 then q else 8
         | none => 8)) :=
  ⟨binanceProcess_range, fun _ _ h => mexcRecordOfItem_interval h⟩

/-- C5 witness: the MEXC conjunct evaluated on a bare item, which defaults to
an 8-hour interval. -/
theorem adapter_interval_nonnull_range_witness :
    mexcRecordETH.fundingIntervalHours =
      (match itemBare.collectCycle with
       | some q => if q != 0 then q else 8
       | none => 8) :=
  adapter_interval_nonnull_range.2 itemBare mexcRecordETH (by decide)

/-- C7: whenever the (sorted) paired comparison table is empty the final
table falls back to the top-10 single-source entries of each source, and the
final table is non-empty whenever at least one source returned a record. -/
theorem finalTableData_fallback_nonempty :
    ∀ binanceRates mexcRates : List FundingRecord,
      (comparisonTableOf binanceRates mexcRates = [] →
        finalTableData binanceRates mexcRates =
          (binanceRates.take 10).map binanceOnlyEntry ++
          (mexcRates.take 10).map mexcOnlyEntry) ∧
      ((binanceRates ≠ [] ∨ mexcRates ≠ []) →
        finalTableData binanceRates mexcRates ≠ []) := by
  intro bR mR
  constructor
  · intro h
    unfold finalTableData
    simp [h]
  · intro h
    unfold finalTableData
    dsimp only
    by_cases hc : ((comparisonTableOf bR mR).length == 0) = true
    · rw [if_pos hc]
      rcases h with hb | hm
      · obtain ⟨a, l, rfl⟩ := List.exists_cons_of_ne_nil hb
        simp
      · obtain ⟨a, l, rfl⟩ := List.exists_cons_of_ne_nil hm
        simp
    · rw [if_neg hc]
      exact fun habs => hc (by rw [habs]; rfl)

/-- C7 witness: one Binance record and an empty MEXC set produce a non-empty
single-source fallback table. -/
theorem finalTableData_fallback_nonempty_witness :
    finalTableData [btcBinanceRecord] [] =
      ([btcBinanceRecord].take 10).map binanceOnlyEntry ++
        (([] : List FundingRecord).take 10).map mexcOnlyEntry ∧
    finalTableData [btcBinanceRecord] [] ≠ [] :=
  ⟨(finalTableData_fallback_nonempty [btcBinanceRecord] []).1 rfl,
   (finalTableData_fallback_nonempty [btcBinanceRecord] []).2 (Or.inl (by simp))⟩

/-- C8 counterexample: a Binance snapshot entry whose rate is JS null (an
unavailable rate, not skipped by the `undefined` guard) is emitted with the
rate string value 0, not with a null marker. -/
theorem binance_rate_zero_fill_counterexample :
    (binanceProcess [inpNullRate] 0).1.map (fun r => r.fundingRate) = [some 0] ∧
    (some (0 : ℚ)) ≠ (none : Option ℚ) := by
  constructor
  · norm_num [binanceProcess, inpNullRate, nullRateData, mkBinanceRecord, binanceInferInterval,
      binanceMethod1, binanceMethod2, getFundingIntervalForSymbol, jsTruthy, inRange24,
      smartFallback, likely1HCoins, major8HCoins, isMemeOrVolatile, jsIncludes, containsList,
      isPrefixList, jsStartsWith, jsReplace, replaceFirstList, takeBeforeColon]
    decide
  · simp

/-- C8 (amended): the MEXC adapter preserves a missing rate as null, but the
Binance adapter stores the value 0 (the string given in the source) for a
null snapshot rate, and the part_000 average zero-fills missing rates — a
null-rate record contributes exactly like a zero-rate record. -/
theorem unavailable_rate_representation :
    (∀ (item : MexcItem) (r : FundingRecord), mexcRecordOfItem item = some r →
      item.fundingRate = none → r.fundingRate = none) ∧
    (∀ (symbol : String) (data : BinanceData) (interval : ℚ),
      data.fundingRate = JsRate.null →
      (mkBinanceRecord symbol data interval).fundingRate = some 0) ∧
    (∀ (r : FundingRecord) (rs : List FundingRecord), r.fundingRate = none →
      averageFundingRate (r :: rs) =
        averageFundingRate ({ r with fundingRate := some 0 } :: rs)) := by
  refine ⟨?_, ?_, ?_⟩
  · intro item r h hrate
    unfold mexcRecordOfItem at h
    cases hs : item.symbol with
    | none =>
      rw [hs] at h
      cases h
    | some sym =>
      rw [hs] at h
      dsimp only at h
      by_cases hu : (jsIncludes sym "USDT") = true
      · rw [if_pos hu] at h
        cases h
        rw [hrate]
      · rw [if_neg hu] at h
        cases h
  · intro symbol data interval hrate
    unfold mkBinanceRecord
    rw [hrate]
  · intro r rs hrate
    unfold averageFundingRate
    simp [hrate, jsOr0]

/-- C8 witness: the Binance conjunct evaluated on the null-rate snapshot. -/
theorem unavailable_rate_representation_witness :
    (mkBinanceRecord "ABC/USDT:USDT" nullRateData 4).fundingRate = some 0 :=
  unavailable_rate_representation.2.1 "ABC/USDT:USDT" nullRateData 4 rfl

/-- C9 counterexample: the part_000 adapter returns records in completion
order with no sort — two instruments arriving as ZZZ, AAA leave the output
unsorted by symbol. -/
theorem v0_adapter_unsorted_counterexample :
    (fetchFundingRatesV0 "binance" [v0InputZ, v0InputA]).map (fun r => r.symbol) =
      ["ZZZ", "AAA"] ∧
    ¬ List.Sorted (fun a b : FundingRecord => symbolLe a b = true)
      (fetchFundingRatesV0 "binance" [v0InputZ, v0InputA]) := by
  constructor
  · decide
  · decide

/-- C9 (amended): both adapters of src/api/funding-rates.js sort their output
ascending by symbol before returning, but the part_000 variant performs no
sort — its output order is the (completion) order of its inputs. -/
theorem adapters_sorted :
    (∀ inputs : List BinanceInput,
      List.Sorted (fun a b : FundingRecord => symbolLe a b = true)
        (fetchBinanceFundingRates inputs)) ∧
    (∀ items : List MexcItem,
      List.Sorted (fun a b : FundingRecord => symbolLe a b = true)
        (fetchMexcFundingRates items)) ∧
    (∀ (exchangeName : String) (inputs : List V0Input),
      (fetchFundingRatesV0 exchangeName inputs).map FundingRecord.symbol =
        (inputs.filter
          (fun inp => jsIncludes inp.symbol ":" && jsIncludes inp.symbol "USDT")).map
          (fun inp => jsReplace (takeBeforeColon inp.symbol) "/USDT" "")) := by
  refine ⟨?_, ?_, ?_⟩
  · intro inputs
    unfold fetchBinanceFundingRates sortBySymbol
    exact List.sorted_insertionSort _ _
  · intro items
    unfold fetchMexcFundingRates sortBySymbol
    exact List.sorted_insertionSort _ _
  · intro exchangeName inputs
    unfold fetchFundingRatesV0
    rw [List.map_map]
    rfl

end FundingRates
